import Mathlib

/-!
Verification development for the scrapollo / apollo-crawler scrape-job
orchestration engine.  The Lean definitions below are shallow embeddings of
the Go source: each definition names the Go function it models and mirrors
its control flow.  The repository contains two revisions of several
components (package paths github.com/shadowbizz/apollo-crawler and
github.com/devsheke/scrapollo); where a claim cites both, both are modelled.
-/

/- ------------------------------------------------------------------
Job queue, slice-backed revision (internal/queue/queue.go).
The queue is a Go slice of job pointers; we model it as a list.
------------------------------------------------------------------ -/

/-- Model of Queue.front (queue.go): returns jobs[0] when non-empty. -/
def front (l : List α) : Option α := l.head?

/-- Model of Queue.enqueueJob (queue.go): append(q.jobs, job). -/
def enqueueJob (l : List α) (j : α) : List α := l ++ [j]

/-- Model of Queue.dequeueJob (queue.go): takes the element at index
len-1 (the back of the slice) and truncates, returning an error on an
empty queue (modelled as none). -/
def dequeueJob (l : List α) : Option (α × List α) :=
  match l.getLast? with
  | none => none
  | some j => some (j, l.dropLast)

/-- Model of Queue.sendToBack (queue.go): dequeueJob followed by
enqueueJob of the dequeued job. -/
def sendToBack (l : List α) : Option (List α) :=
  match dequeueJob l with
  | none => none
  | some (j, rest) => some (enqueueJob rest j)

/- ------------------------------------------------------------------
Job queue, linked-list revision (JobQueue in the runner package):
Requeue moves the Front element of the container/list to the back.
------------------------------------------------------------------ -/

/-- Model of JobQueue.Requeue: error on an empty queue, otherwise
MoveToBack(Front()), i.e. the head moves to the end. -/
def jobRequeue (l : List α) : Option (List α) :=
  match l with
  | [] => none
  | x :: xs => some (xs ++ [x])

/-- Total rotate-to-back operation used to iterate the round-robin
behaviour of jobRequeue (identical to it on non-empty queues). -/
def rotate (l : List α) : List α :=
  match l with
  | [] => []
  | x :: xs => xs ++ [x]

theorem jobRequeue_eq_rotate (x : α) (xs : List α) :
    jobRequeue (x :: xs) = some (rotate (x :: xs)) := rfl

/-- Round-robin fairness of the rotate-to-back operation: after k
rotations the front of the queue is the k-th job of the original queue,
so each job is attempted once before any job repeats. -/
theorem rotate_iterate_head (l : List α) (k : Nat) (h : k < l.length) :
    (rotate^[k] l).head? = l[k]? := by
  induction k generalizing l with
  | zero =>
    cases l with
    | nil => simp at h
    | cons x xs => simp
  | succ n ih =>
    cases l with
    | nil => simp at h
    | cons x xs =>
      rw [Function.iterate_succ_apply]
      have hstep : rotate (x :: xs) = xs ++ [x] := rfl
      rw [hstep]
      have hn : n < xs.length := Nat.lt_of_succ_lt_succ (by simpa using h)
      rw [ih (xs ++ [x]) (by simp [Nat.lt_succ_of_lt hn])]
      rw [List.getElem?_append]
      simp [hn]

/-- C1: the rotate-to-back operation is claimed to move the front job to
the back, preserving the rest.  JobQueue.Requeue does exactly that, and
iterating it gives round-robin fairness; but Queue.sendToBack in
queue.go dequeues from the BACK of the slice and re-appends it, leaving
the queue unchanged, so the slice-backed revision never rotates. -/
theorem sendToBack_is_noop_requeue_rotates :
    (∀ (x : Nat) (xs : List Nat), jobRequeue (x :: xs) = some (xs ++ [x])) ∧
    sendToBack [1, 2] = some [1, 2] ∧
    jobRequeue [1, 2] = some [2, 1] ∧
    (some [1, 2] ≠ some [2, 1] : Prop) ∧
    (rotate^[0] [10, 20, 30]).head? = some 10 ∧
    (rotate^[1] [10, 20, 30]).head? = some 20 ∧
    (rotate^[2] [10, 20, 30]).head? = some 30 := by
  refine ⟨fun x xs => rfl, ?_, ?_, ?_, ?_, ?_, ?_⟩ <;> decide

/- ------------------------------------------------------------------
IsDone, the two revisions (C10).
------------------------------------------------------------------ -/

/-- Model of ApolloAccount.IsDone (internal/models/models.go):
a.Saved >= a.Target. -/
def apolloIsDone (saved target : Int) : Bool := saved ≥ target

/-- Model of Account.IsDone (scrapollo models revision):
a.Target == a.Saved, a strict equality test. -/
def accountIsDone (saved target : Int) : Bool := target == saved

/-- C10 counterexample: at saved = 2, target = 1 the scrapollo
Account.IsDone returns false although saved >= target, so the claimed
biconditional fails for that revision. -/
theorem accountIsDone_overshoot_counterexample :
    ¬ (accountIsDone 2 1 = true ↔ (2 : Int) ≥ 1) := by decide

/-- C10 (amended): ApolloAccount.IsDone returns true iff saved >= target,
so an overshooting batch save still retires the job in that revision;
Account.IsDone returns true iff target = saved exactly, so a batch save
that overshoots (saved strictly greater than target) does NOT classify
the account as done there. -/
theorem isDone_revisions_characterized :
    (∀ s t : Int, apolloIsDone s t = true ↔ s ≥ t) ∧
    (∀ s t : Int, accountIsDone s t = true ↔ t = s) ∧
    (∀ s t n : Int, s + n ≥ t → apolloIsDone (s + n) t = true) ∧
    (∀ s t n : Int, s + n > t → accountIsDone (s + n) t = false) := by
  refine ⟨?_, ?_, ?_, ?_⟩
  · intro s t; simp [apolloIsDone]
  · intro s t; simp [accountIsDone]
  · intro s t n h; simp [apolloIsDone, h]
  · intro s t n h; simp [accountIsDone]; omega

/-- Witness for the amended C10 theorem at concrete inputs. -/
theorem isDone_revisions_characterized_witness :
    apolloIsDone (1 + 1) 1 = true ∧ accountIsDone (1 + 1) 1 = false :=
  ⟨isDone_revisions_characterized.2.2.1 1 1 1 (by decide),
   isDone_revisions_characterized.2.2.2 1 1 1 (by decide)⟩

/- ------------------------------------------------------------------
Quota controller: the rolling 24-hour save window (C7).
ScrapeJob.IsDoneForToday and job.hitDailyLimit have the same body:
if startedAt is unset return false; if now is before startedAt + 24h
and savedToday >= limit, reset the window and return true; otherwise
return false.  Time is modelled as Int seconds; dayLength is 24h.
------------------------------------------------------------------ -/

/-- Seconds in the 24-hour window used by the quota controller. -/
def dayLength : Int := 86400

/-- Transient per-job quota state: startedAt (a nil-able timestamp)
and the savedToday counter. -/
structure DayWindow where
  startedAt : Option Int
  savedToday : Int
deriving DecidableEq

/-- Model of ScrapeJob.IsDoneForToday / job.hitDailyLimit: returns the
boolean result together with the (possibly reset) job state. -/
def isDoneForToday (now limit : Int) (j : DayWindow) : Bool × DayWindow :=
  match j.startedAt with
  | none => (false, j)
  | some t0 =>
    if now < t0 + dayLength ∧ j.savedToday ≥ limit then (true, ⟨none, 0⟩)
    else (false, j)

/-- C7 counterexample: a job whose window opened at time 0 checked at
time 2*86400 (window fully elapsed) with savedToday = 7 >= limit = 5 is
NOT reset: the call returns false and leaves startedAt and savedToday
untouched, so the stale window does not self-heal on the next check. -/
theorem isDoneForToday_no_self_heal :
    isDoneForToday (2 * 86400) 5 ⟨some 0, 7⟩ = (false, ⟨some 0, 7⟩) ∧
    ¬ ((2 * 86400 : Int) < 0 + dayLength) ∧
    (isDoneForToday (2 * 86400) 5 ⟨some 0, 7⟩).snd.startedAt ≠ none := by
  refine ⟨by decide, by decide, by decide⟩

/-- C7 (amended): isDoneForToday returns false when startedAt is unset;
it returns true exactly when now is within 24 hours of startedAt and
savedToday >= dailyLimit, and in that case (and only that case) it
clears startedAt and zeroes savedToday; in every other case, including
a fully elapsed window, it returns false and leaves the state
unchanged (no self-healing reset of stale windows). -/
theorem isDoneForToday_characterized (now limit : Int) (j : DayWindow) :
    (j.startedAt = none → isDoneForToday now limit j = (false, j)) ∧
    ((isDoneForToday now limit j).fst = true ↔
      ∃ t0, j.startedAt = some t0 ∧ now < t0 + dayLength ∧ j.savedToday ≥ limit) ∧
    ((isDoneForToday now limit j).fst = true →
      (isDoneForToday now limit j).snd = ⟨none, 0⟩) ∧
    ((isDoneForToday now limit j).fst = false →
      (isDoneForToday now limit j).snd = j) := by
  obtain ⟨st, sv⟩ := j
  refine ⟨?_, ?_, ?_, ?_⟩
  · intro h; subst h; rfl
  · cases st with
    | none => simp [isDoneForToday]
    | some t0 =>
      by_cases hc : now < t0 + dayLength ∧ sv ≥ limit
      · exact iff_of_true (by simp [isDoneForToday, hc]) ⟨t0, rfl, hc.1, hc.2⟩
      · refine iff_of_false (by simp [isDoneForToday, hc]) ?_
        rintro ⟨d, hd, h1, h2⟩
        cases hd
        exact hc ⟨h1, h2⟩
  · cases st with
    | none => simp [isDoneForToday]
    | some t0 =>
      by_cases hc : now < t0 + dayLength ∧ sv ≥ limit
      · simp [isDoneForToday, hc]
      · simp [isDoneForToday, hc]
  · cases st with
    | none => simp [isDoneForToday]
    | some t0 =>
      by_cases hc : now < t0 + dayLength ∧ sv ≥ limit
      · simp [isDoneForToday, hc]
      · simp [isDoneForToday, hc]

/-- Witness for the amended C7 theorem: within-window limit hit returns
true and resets; unset start returns false. -/
theorem isDoneForToday_characterized_witness :
    isDoneForToday 10 5 ⟨none, 0⟩ = (false, ⟨none, 0⟩) ∧
    (isDoneForToday 100 5 ⟨some 50, 6⟩).fst = true ∧
    (isDoneForToday 100 5 ⟨some 50, 6⟩).snd = ⟨none, 0⟩ :=
  ⟨(isDoneForToday_characterized 10 5 ⟨none, 0⟩).1 rfl,
   by decide,
   (isDoneForToday_characterized 100 5 ⟨some 50, 6⟩).2.2.1 (by decide)⟩

/- ------------------------------------------------------------------
Scheduler skip decision (C6).
ScrapeRunner.Run (apollo-crawler revision) skips the front job iff
account.IsTimedOut(); Runner.Start (scrapollo revision) checks only
whether acc.Timeout is set, combined with a skip counter.
------------------------------------------------------------------ -/

/-- Model of ApolloAccount.IsTimedOut (internal/models/models.go):
false when Timeout is unset; true when the deadline is in the future;
when the deadline has elapsed the Timeout is Reset and false returned.
Returns the result with the updated Timeout field. -/
def isTimedOut (now : Int) (timeout : Option Int) : Bool × Option Int :=
  match timeout with
  | none => (false, none)
  | some t => if now < t then (true, some t) else (false, none)

/-- Actions the scheduler can take for the front job in one iteration. -/
inductive FrontAction where
  | skipRequeue
  | sleepThenRun
  | runJob
deriving DecidableEq

/-- Model of the front-of-queue decision in ScrapeRunner.Run
(internal/runner/run.go): requeue iff IsTimedOut, otherwise run. -/
def apolloFrontAction (now : Int) (timeout : Option Int) : FrontAction :=
  if (isTimedOut now timeout).fst then FrontAction.skipRequeue
  else FrontAction.runJob

/-- Model of the front-of-queue decision in Runner.Start (the scrapollo
revision): if acc.Timeout.Get() reports the timeout as set, then either
rearrange-sleep-run (when the skip counter has reached the queue
length) or increment the counter and requeue; expiry is not checked. -/
def runnerFrontAction (timeout : Option Int) (timeoutSkip queueLen : Nat) :
    FrontAction :=
  match timeout with
  | some _ =>
    if timeoutSkip ≥ queueLen then FrontAction.sleepThenRun
    else FrontAction.skipRequeue
  | none => FrontAction.runJob

/-- C6 counterexample: at time 100 a front job whose timeout is set to
the already-elapsed deadline 50 is still skipped by Runner.Start (skip
counter 0, queue length 2), refuting the claim that a job is skipped iff
its timeout is set AND in the future. -/
theorem runnerFrontAction_skips_elapsed_timeout :
    ¬ (runnerFrontAction (some 50) 0 2 = FrontAction.skipRequeue ↔
        (some (50 : Int)).isSome = true ∧ (100 : Int) < 50) := by
  decide

/-- C6 (amended): in ScrapeRunner.Run the front job is skipped iff its
timeout is set and its deadline is in the future (IsTimedOut), and an
elapsed timeout is cleared; in Runner.Start the front job is skipped
iff its timeout is merely set and the skip counter is below the queue
length, even when the deadline has already elapsed. -/
theorem frontAction_characterized :
    (∀ (now : Int) (t : Option Int),
      (isTimedOut now t).fst = true ↔ ∃ d, t = some d ∧ now < d) ∧
    (∀ (now d : Int), ¬ now < d → isTimedOut now (some d) = (false, none)) ∧
    (∀ (now : Int) (t : Option Int),
      apolloFrontAction now t = FrontAction.skipRequeue ↔
        ∃ d, t = some d ∧ now < d) ∧
    (∀ (t : Option Int) (skip len : Nat),
      runnerFrontAction t skip len = FrontAction.skipRequeue ↔
        t.isSome = true ∧ skip < len) := by
  have hto : ∀ (now : Int) (t : Option Int),
      (isTimedOut now t).fst = true ↔ ∃ d, t = some d ∧ now < d := by
    intro now t
    cases t with
    | none => simp [isTimedOut]
    | some d =>
      by_cases h : now < d
      · simp [isTimedOut, h]
      · simp [isTimedOut, h]
  refine ⟨hto, ?_, ?_, ?_⟩
  · intro now d h; simp [isTimedOut, h]
  · intro now t
    by_cases h : (isTimedOut now t).fst = true
    · exact iff_of_true (by simp [apolloFrontAction, h]) ((hto now t).mp h)
    · have hb : (isTimedOut now t).fst = false := by
        revert h; cases (isTimedOut now t).fst <;> simp
      refine iff_of_false (by simp [apolloFrontAction, hb]) ?_
      intro hex
      exact h ((hto now t).mpr hex)
  · intro t skip len
    cases t with
    | none => simp [runnerFrontAction]
    | some d =>
      by_cases h : skip ≥ len
      · simp [runnerFrontAction, h]
      · simp [runnerFrontAction, h]; omega

/-- Witness for the amended C6 theorem at concrete inputs. -/
theorem frontAction_characterized_witness :
    isTimedOut 100 (some 50) = (false, none) ∧
    (apolloFrontAction 40 (some 50) = FrontAction.skipRequeue ↔
      ∃ d, (some (50 : Int)) = some d ∧ (40 : Int) < d) :=
  ⟨frontAction_characterized.2.1 100 50 (by decide),
   frontAction_characterized.2.2.1 40 (some 50)⟩

/- ------------------------------------------------------------------
Account file normalization (C9).
ReadAccountsFile (internal/io/io.go) post-processes decoded records:
a nil Timeout pointer is replaced by an empty Time; the branch guarded
by a nil CreditRefresh pointer ALSO assigns to Timeout (the source
assigns record.Timeout in both branches), so CreditRefresh is left nil.
------------------------------------------------------------------ -/

/-- Model of the models.Time value behind a pointer: the ok flag and
the timestamp. -/
structure GoTime where
  ok : Bool
  time : Int
deriving DecidableEq

/-- The zero models.Time value used for normalization. -/
def emptyGoTime : GoTime := ⟨false, 0⟩

/-- An ApolloAccount as decoded from CSV/JSON: Timeout and
CreditRefresh are nil-able pointers, modelled as Option. -/
structure AccountRecord where
  credits : Int
  creditRefresh : Option GoTime
  timeout : Option GoTime
deriving DecidableEq

/-- Model of the normalization loop body in ReadAccountsFile: if
record.Timeout is nil assign an empty Time to record.Timeout; if
record.CreditRefresh is nil the source again assigns record.Timeout
(not record.CreditRefresh), mirrored here exactly. -/
def normalizeRecord (r : AccountRecord) : AccountRecord :=
  let r1 := match r.timeout with
    | none => { r with timeout := some emptyGoTime }
    | some _ => r
  match r1.creditRefresh with
  | none => { r1 with timeout := some emptyGoTime }
  | some _ => r1

/-- Model of ReadAccountsFile on already-decoded records: each record
is normalized in place. -/
def readAccountsFile (rs : List AccountRecord) : List AccountRecord :=
  rs.map normalizeRecord

/-- Model of ApolloAccount.CanScrape (internal/models/models.go):
a.Credits > 0 || time.Now().After(a.CreditRefresh.time).  The OR
short-circuits; when the right side is reached and CreditRefresh is
nil the field access panics, modelled as none. -/
def canScrape (now : Int) (a : AccountRecord) : Option Bool :=
  if a.credits > 0 then some true
  else
    match a.creditRefresh with
    | none => none
    | some t => some (decide (now > t.time))

/-- Model of ApolloAccount.IsTimedOut viewed only through its pointer
accesses: it always dereferences a.Timeout, so a nil Timeout panics
(none); otherwise it returns whether the deadline is set and in the
future. -/
def isTimedOutDeref (now : Int) (a : AccountRecord) : Option Bool :=
  match a.timeout with
  | none => none
  | some t => some (t.ok && decide (now < t.time))

/-- C9: a record decoded with neither Timeout nor CreditRefresh present
gets a non-nil Timeout, but its CreditRefresh stays nil because the
CreditRefresh branch of the normalization assigns Timeout instead;
CanScrape on such an account with zero credits then dereferences the
nil CreditRefresh pointer (modelled as none). -/
theorem readAccountsFile_leaves_creditRefresh_nil :
    readAccountsFile [⟨0, none, none⟩] = [⟨0, none, some emptyGoTime⟩] ∧
    (normalizeRecord ⟨0, none, none⟩).creditRefresh = none ∧
    canScrape 0 (normalizeRecord ⟨0, none, none⟩) = none ∧
    isTimedOutDeref 0 (normalizeRecord ⟨0, none, none⟩) = some false := by
  refine ⟨?_, ?_, ?_, ?_⟩ <;> decide

/- ------------------------------------------------------------------
Scheduler queue rearrangement (C5).
Runner.rearrangeJobs (scrapollo revision) copies the queue to a slice
and calls slices.SortFunc with a comparator that reads
a.acc.Timeout.Get() for BOTH operands (the second read also uses a, not
b).  For slices shorter than 12 elements Go's slices.SortFunc runs its
insertion sort, modelled below.
------------------------------------------------------------------ -/

/-- A scheduler job viewed through its account cooldown deadline:
acc.Timeout.Get() yields (time, ok), modelled as Option Int. -/
structure SchedJob where
  timeout : Option Int
deriving DecidableEq

/-- Model of the comparator passed to slices.SortFunc in
Runner.rearrangeJobs.  Both timeoutA/okA and timeoutB/okB are read from
operand a in the source; the model mirrors that slip. -/
def jobCompare (a b : SchedJob) : Int :=
  let tA := a.timeout
  let tB := a.timeout
  if tA.isNone && tB.isNone then 0
  else if tA.isNone then -1
  else if tB.isNone then 1
  else
    let x := tA.getD 0
    let y := tB.getD 0
    if x < y then -1 else if y < x then 1 else 0

/-- One step of the Go insertion sort: the new element moves left past
the reversed sorted prefix while the comparator is strictly negative. -/
def goInsertRev (cmp : α → α → Int) (x : α) : List α → List α
  | [] => [x]
  | z :: zs => if cmp x z < 0 then z :: goInsertRev cmp x zs else x :: z :: zs

/-- Helper for goInsertionSort: folds the remaining elements into the
reversed sorted prefix. -/
def goInsertionSortAux (cmp : α → α → Int) (revDone : List α) :
    List α → List α
  | [] => revDone.reverse
  | x :: xs => goInsertionSortAux cmp (goInsertRev cmp x revDone) xs

/-- Model of the insertion sort Go's slices.SortFunc performs on slices
of fewer than 12 elements. -/
def goInsertionSort (cmp : α → α → Int) (l : List α) : List α :=
  goInsertionSortAux cmp [] l

/-- Model of Runner.rearrangeJobs on queues of fewer than 12 jobs:
slices.SortFunc with the jobCompare comparator. -/
def rearrangeJobs (jobs : List SchedJob) : List SchedJob :=
  goInsertionSort jobCompare jobs

theorem jobCompare_eq_zero (a b : SchedJob) : jobCompare a b = 0 := by
  obtain ⟨t⟩ := a
  cases t with
  | none => rfl
  | some x => simp [jobCompare]

theorem goInsertRev_of_zero (cmp : α → α → Int)
    (h : ∀ a b, cmp a b = 0) (x : α) (l : List α) :
    goInsertRev cmp x l = x :: l := by
  cases l with
  | nil => rfl
  | cons z zs => simp [goInsertRev, h]

theorem goInsertionSortAux_of_zero (cmp : α → α → Int)
    (h : ∀ a b, cmp a b = 0) (l rev : List α) :
    goInsertionSortAux cmp rev l = rev.reverse ++ l := by
  induction l generalizing rev with
  | nil => simp [goInsertionSortAux]
  | cons x xs ih =>
    rw [show goInsertionSortAux cmp rev (x :: xs)
          = goInsertionSortAux cmp (goInsertRev cmp x rev) xs from rfl]
    rw [goInsertRev_of_zero cmp h, ih]
    simp

/-- The comparator never separates two jobs, so the sort never moves
anything: rearrangeJobs is the identity on every queue. -/
theorem rearrangeJobs_id (jobs : List SchedJob) : rearrangeJobs jobs = jobs := by
  have h := goInsertionSortAux_of_zero jobCompare jobCompare_eq_zero jobs []
  simpa [rearrangeJobs, goInsertionSort] using h

/-- C5: the comparator in Runner.rearrangeJobs reads operand a for both
sides, so it returns 0 on every pair and the rearranged queue is the
input queue unchanged: a queue whose front deadline (10) is later than
its back deadline (5) stays unsorted, and the scheduler then sleeps
until the front deadline 10 rather than the earliest deadline 5. -/
theorem rearrangeJobs_does_not_sort :
    (∀ a b : SchedJob, jobCompare a b = 0) ∧
    rearrangeJobs [⟨some 10⟩, ⟨some 5⟩] = [⟨some 10⟩, ⟨some 5⟩] ∧
    rearrangeJobs [⟨some 10⟩, ⟨some 5⟩] ≠ [⟨some 5⟩, ⟨some 10⟩] ∧
    (rearrangeJobs [⟨some 10⟩, ⟨some 5⟩]).head? = some ⟨some 10⟩ := by
  refine ⟨jobCompare_eq_zero, rearrangeJobs_id _, ?_, ?_⟩
  · rw [rearrangeJobs_id]; decide
  · rw [rearrangeJobs_id]; rfl

/- ------------------------------------------------------------------
VPN Session start (C2).
openvpn.Start (pkg/openvpn-go/openvpn.go) launches the subprocess and
enters a select loop over four channels: the deadline context, the
stdout stream, the stderr stream, and the exit status.  We model the
sequence of channel deliveries as a list of events and the loop as a
recursion over it; none means the loop is still waiting.
------------------------------------------------------------------ -/

/-- Model of strings.HasPrefix on character lists. -/
def charsStart : List Char → List Char → Bool
  | [], _ => true
  | _ :: _, [] => false
  | a :: as, b :: bs => a == b && charsStart as bs

/-- Model of strings.Contains on character lists: some suffix of the
haystack starts with the needle. -/
def charsContain (needle : List Char) : List Char → Bool
  | [] => charsStart needle []
  | b :: t => charsStart needle (b :: t) || charsContain needle t

/-- The literal success marker openvpn.Start looks for on stdout. -/
def initMarker : String := "Initialization Sequence Completed"

/-- Model of strings.Contains(stdout, initMarker). -/
def containsMarker (s : String) : Bool :=
  charsContain initMarker.toList s.toList

/-- One delivery observed by the select loop in openvpn.Start. -/
inductive VpnEvent where
  | stdoutLine (line : String)
  | stderrLine (line : String)
  | exited (statusErr : Bool) (stderrBuf : List String)
  | deadline
deriving DecidableEq

/-- Outcome of openvpn.Start. -/
inductive StartOutcome where
  | tunnelHandle
  | vpnTimedOut (captured : String)
  | vpnFailure (stdout stderr : String)
  | statusError
deriving DecidableEq

/-- Model of the select loop of openvpn.Start: acc is the stdoutStack
of accumulated non-empty stdout lines.  A stdout line containing the
marker returns the handle; the deadline returns Timeout with the
captured stdout; stderr returns ProcessFailure; process exit returns
the status error if set, otherwise ProcessFailure with the status
stderr buffer (possibly empty). -/
def startLoop : List VpnEvent → List String → Option StartOutcome
  | [], _ => none
  | e :: evs, acc =>
    match e with
    | VpnEvent.deadline =>
      some (StartOutcome.vpnTimedOut (String.intercalate "\n" acc))
    | VpnEvent.stdoutLine line =>
      if containsMarker line then some StartOutcome.tunnelHandle
      else startLoop evs (if line == "" then acc else acc ++ [line])
    | VpnEvent.stderrLine line =>
      some (StartOutcome.vpnFailure (String.intercalate "\n" acc) line)
    | VpnEvent.exited statusErr stderrBuf =>
      if statusErr then some StartOutcome.statusError
      else if stderrBuf.length > 0 then
        some (StartOutcome.vpnFailure (String.intercalate "\n" acc)
          (String.intercalate "\n" stderrBuf))
      else some (StartOutcome.vpnFailure (String.intercalate "\n" acc) "")

/-- Model of openvpn.Start given the sequence of channel deliveries. -/
def vpnStart (evs : List VpnEvent) : Option StartOutcome :=
  startLoop evs []

/-- An event the start loop absorbs without returning: a stdout line
that does not contain the success marker. -/
def plainLine (e : VpnEvent) : Prop :=
  ∃ l, e = VpnEvent.stdoutLine l ∧ containsMarker l = false

theorem startLoop_success_iff (evs : List VpnEvent) (acc : List String) :
    startLoop evs acc = some StartOutcome.tunnelHandle ↔
      ∃ pre line rest, evs = pre ++ VpnEvent.stdoutLine line :: rest ∧
        containsMarker line = true ∧ ∀ e ∈ pre, plainLine e := by
  induction evs generalizing acc with
  | nil =>
    refine iff_of_false (by simp [startLoop]) ?_
    rintro ⟨pre, line, rest, heq, -, -⟩
    exact absurd heq.symm (by simp)
  | cons e evs ih =>
    cases e with
    | stdoutLine line =>
      by_cases hm : containsMarker line = true
      · refine iff_of_true (by simp [startLoop, hm]) ?_
        exact ⟨[], line, evs, rfl, hm, by simp⟩
      · have hm2 : containsMarker line = false := by
          revert hm; cases containsMarker line <;> simp
        rw [show startLoop (VpnEvent.stdoutLine line :: evs) acc
              = startLoop evs (if line == "" then acc else acc ++ [line]) from
            by simp [startLoop, hm2]]
        rw [ih]
        constructor
        · rintro ⟨pre, l2, rest, heq, hmark, hpre⟩
          refine ⟨VpnEvent.stdoutLine line :: pre, l2, rest, by simp [heq],
            hmark, ?_⟩
          intro x hx
          rcases List.mem_cons.mp hx with hx | hx
          · exact hx ▸ ⟨line, rfl, hm2⟩
          · exact hpre x hx
        · rintro ⟨pre, l2, rest, heq, hmark, hpre⟩
          cases pre with
          | nil =>
            simp only [List.nil_append, List.cons.injEq] at heq
            obtain ⟨h1, -⟩ := heq
            obtain ⟨rfl⟩ := VpnEvent.stdoutLine.inj h1
            exact absurd hmark hm
          | cons p ps =>
            simp only [List.cons_append, List.cons.injEq] at heq
            obtain ⟨-, h2⟩ := heq
            exact ⟨ps, l2, rest, h2, hmark, fun x hx =>
              hpre x (List.mem_cons_of_mem p hx)⟩
    | stderrLine line =>
      refine iff_of_false (by simp [startLoop]) ?_
      rintro ⟨pre, l2, rest, heq, -, hpre⟩
      cases pre with
      | nil =>
        simp only [List.nil_append, List.cons.injEq] at heq
        exact absurd heq.1 (by simp)
      | cons p ps =>
        simp only [List.cons_append, List.cons.injEq] at heq
        obtain ⟨l3, hl3, -⟩ := hpre p (List.mem_cons_self p ps)
        rw [← heq.1] at hl3
        exact absurd hl3 (by simp)
    | exited statusErr stderrBuf =>
      refine iff_of_false ?_ ?_
      · by_cases hse : statusErr
        · simp [startLoop, hse]
        · by_cases hb : stderrBuf.length > 0
          · simp [startLoop, hse, hb]
          · simp [startLoop, hse, hb]
      · rintro ⟨pre, l2, rest, heq, -, hpre⟩
        cases pre with
        | nil =>
          simp only [List.nil_append, List.cons.injEq] at heq
          exact absurd heq.1 (by simp)
        | cons p ps =>
          simp only [List.cons_append, List.cons.injEq] at heq
          obtain ⟨l3, hl3, -⟩ := hpre p (List.mem_cons_self p ps)
          rw [← heq.1] at hl3
          exact absurd hl3 (by simp)
    | deadline =>
      refine iff_of_false (by simp [startLoop]) ?_
      rintro ⟨pre, l2, rest, heq, -, hpre⟩
      cases pre with
      | nil =>
        simp only [List.nil_append, List.cons.injEq] at heq
        exact absurd heq.1 (by simp)
      | cons p ps =>
        simp only [List.cons_append, List.cons.injEq] at heq
        obtain ⟨l3, hl3, -⟩ := hpre p (List.mem_cons_self p ps)
        rw [← heq.1] at hl3
        exact absurd hl3 (by simp)

/-- C2: openvpn.Start returns a tunnel handle iff some stdout line
containing the literal marker is delivered before the deadline, before
any stderr line and before the exit status; and a clean process exit
(no status error, empty stderr buffer) with no marker still returns
ProcessFailure with an empty stderr string, never success. -/
theorem vpnStart_success_characterized :
    (∀ evs : List VpnEvent,
      vpnStart evs = some StartOutcome.tunnelHandle ↔
        ∃ pre line rest, evs = pre ++ VpnEvent.stdoutLine line :: rest ∧
          containsMarker line = true ∧ ∀ e ∈ pre, plainLine e) ∧
    vpnStart [VpnEvent.exited false []] =
      some (StartOutcome.vpnFailure "" "") := by
  constructor
  · intro evs
    exact startLoop_success_iff evs []
  · rfl

/- ------------------------------------------------------------------
VPN Session stop and restart (C8).
openvpn.Stop (pkg/openvpn-go/openvpn.go) uses a named return err and a
deferred errors.Join(err, kill-result) that runs whenever the process
pointer is non-nil.  Go's errors.Join returns nil when all arguments
are nil, and otherwise a fresh joinError wrapping the non-nil ones; a
joinError is never pointer-equal to the ErrorNoVpnProcess sentinel, so
Restart's comparison err != ErrorNoVpnProcess sees the wrapper as a
distinct error.
------------------------------------------------------------------ -/

/-- Errors of the openvpn package, with the joined-error wrapper
produced by errors.Join modelled explicitly as a constructor. -/
inductive GoError where
  | noVpnProcess
  | stopFailed (msg : String)
  | killFailed (msg : String)
  | joined (errs : List GoError)

/-- Model of Go errors.Join on two nil-able errors: nil when both are
nil, otherwise a fresh joinError collecting the non-nil ones (a single
non-nil argument is still wrapped). -/
def goErrorsJoin (a b : Option GoError) : Option GoError :=
  match a, b with
  | none, none => none
  | some x, none => some (GoError.joined [x])
  | none, some y => some (GoError.joined [y])
  | some x, some y => some (GoError.joined [x, y])

/-- A go-cmd process handle: whether Start was ever called on it, and
the result its Stop method returns when it was started (go-cmd returns
ErrNotStarted from Stop iff Start was never called). -/
structure TunnelProcess where
  started : Bool
  stopResult : Option GoError

/-- Model of openvpn.Stop: a nil process returns ErrorNoVpnProcess with
no deferred join (the defer is guarded by process != nil); a non-nil
process maps the ErrNotStarted result of the graceful stop to
ErrorNoVpnProcess, and the deferred function then aggregates the
graceful result with the forced-kill result through errors.Join. -/
def vpnStop (process : Option TunnelProcess) (killResult : Option GoError) :
    Option GoError :=
  match process with
  | none => some GoError.noVpnProcess
  | some p =>
    let graceful : Option GoError :=
      match p.started with
      | false => some GoError.noVpnProcess
      | true => p.stopResult
    goErrorsJoin graceful killResult

/-- Result of openvpn.Restart. -/
inductive RestartResult where
  | aborted (e : GoError)
  | launched (outcome : Option StartOutcome)

/-- Model of openvpn.Restart: Stop, swallow exactly the sentinel value
ErrorNoVpnProcess (Go compares with !=, i.e. sentinel identity), abort
on any other error, otherwise run Start on the new configuration. -/
def vpnRestart (process : Option TunnelProcess) (killResult : Option GoError)
    (evs : List VpnEvent) : RestartResult :=
  match vpnStop process killResult with
  | none => RestartResult.launched (vpnStart evs)
  | some GoError.noVpnProcess => RestartResult.launched (vpnStart evs)
  | some e => RestartResult.aborted e

/-- C8 counterexample: restarting with a non-nil handle whose process
was never started and whose forced kill reports no error aborts with
the joined wrapper around NoProcess instead of proceeding to start,
because errors.Join wraps the sentinel and the != comparison no longer
matches it. -/
theorem vpnRestart_never_started_aborts :
    vpnStop (some ⟨false, none⟩) none =
      some (GoError.joined [GoError.noVpnProcess]) ∧
    vpnRestart (some ⟨false, none⟩) none [] =
      RestartResult.aborted (GoError.joined [GoError.noVpnProcess]) ∧
    GoError.joined [GoError.noVpnProcess] ≠ GoError.noVpnProcess := by
  refine ⟨rfl, rfl, ?_⟩
  intro h
  exact GoError.noConfusion h

/-- C8 (amended): stop on a nil handle returns the bare NoProcess
sentinel and restart then swallows it and proceeds to start; a stop
error other than the bare sentinel aborts the restart without starting;
but for a non-nil handle whose process was never started the deferred
errors.Join wraps NoProcess (together with any forced-kill error), so
restart aborts instead of proceeding. -/
theorem vpnRestart_characterized :
    (∀ k : Option GoError, vpnStop none k = some GoError.noVpnProcess) ∧
    (∀ (k : Option GoError) (evs : List VpnEvent),
      vpnRestart none k evs = RestartResult.launched (vpnStart evs)) ∧
    (∀ (p : Option TunnelProcess) (k : Option GoError) (evs : List VpnEvent)
        (e : GoError), vpnStop p k = some e → e ≠ GoError.noVpnProcess →
      vpnRestart p k evs = RestartResult.aborted e) ∧
    (∀ (sr k : Option GoError),
      vpnStop (some ⟨false, sr⟩) k =
        some (GoError.joined (GoError.noVpnProcess :: k.toList))) := by
  refine ⟨fun k => rfl, fun k evs => rfl, ?_, ?_⟩
  · intro p k evs e hstop hne
    rw [show vpnRestart p k evs =
          (match vpnStop p k with
            | none => RestartResult.launched (vpnStart evs)
            | some GoError.noVpnProcess => RestartResult.launched (vpnStart evs)
            | some e => RestartResult.aborted e) from rfl]
    rw [hstop]
    cases e with
    | noVpnProcess => exact absurd rfl hne
    | stopFailed msg => rfl
    | killFailed msg => rfl
    | joined errs => rfl
  · intro sr k
    cases k with
    | none => rfl
    | some y => rfl

/-- Witness for the amended C8 theorem at concrete inputs. -/
theorem vpnRestart_characterized_witness :
    vpnStop none none = some GoError.noVpnProcess ∧
    vpnRestart (some ⟨true, some (GoError.stopFailed "boom")⟩) none [] =
      RestartResult.aborted (GoError.joined [GoError.stopFailed "boom"]) :=
  ⟨vpnRestart_characterized.1 none,
   vpnRestart_characterized.2.2.1 (some ⟨true, some (GoError.stopFailed "boom")⟩)
     none [] (GoError.joined [GoError.stopFailed "boom"]) rfl
     (fun h => GoError.noConfusion h)⟩

/- ------------------------------------------------------------------
VPN Session Manager (C3, C4).
internal/openvpn/openvpn.go: Manager.Start validates pool membership,
reassigns config to filepath.Join(dir, config) BEFORE delegating and
before marking used, so the used set receives joined paths while
filterUnused tests the bare pool names.  Manager.Backup computes the
unused list once, then repeatedly draws a random index; it consults a
usedCache map of tried indices but never inserts into it.
------------------------------------------------------------------ -/

/-- Model of filepath.Join for a clean directory and a clean file name;
the repository always calls it with a non-empty configuration
directory. -/
def goFilepathJoin (dir name : String) : String :=
  if dir == "" then name else dir ++ "/" ++ name

/-- The Manager state: the configuration directory, the discovered pool
of configuration file names, and the used cache (insertion order). -/
structure Manager where
  dir : String
  configs : List String
  used : List String
deriving DecidableEq

/-- Model of Manager.UseConfig: adds the given string to the used
cache. -/
def useConfig (v : Manager) (config : String) : Manager :=
  { v with used := v.used ++ [config] }

/-- Model of Manager.IsConfigUsed: membership in the used cache. -/
def isConfigUsed (v : Manager) (config : String) : Bool :=
  v.used.contains config

/-- Errors Manager.Start can surface. -/
inductive ManagerStartErr where
  | configNotFound
  | launchFailed
deriving DecidableEq

/-- Model of Manager.Start: reject names outside the pool; reassign
config to the joined path; delegate to the session start (its success
is the launchOk parameter); on success mark the (joined) config string
used if it is not already. -/
def managerStart (v : Manager) (config : String) (launchOk : Bool) :
    Manager × Option ManagerStartErr :=
  if ¬ v.configs.contains config then (v, some ManagerStartErr.configNotFound)
  else
    let config := goFilepathJoin v.dir config
    if ¬ launchOk then (v, some ManagerStartErr.launchFailed)
    else if isConfigUsed v config then (v, none)
    else (useConfig v config, none)

/-- Model of Manager.filterUnused without the final shuffle: the pool
names whose IsConfigUsed is false, in pool order (the shuffle only
permutes this list uniformly). -/
def filterUnused (v : Manager) : List String :=
  v.configs.filter (fun c => ¬ isConfigUsed v c)

/-- One iteration of the Backup retry loop: the index drawn by
rand.IntN(len(unused)) and whether Start succeeds on that candidate. -/
structure BackupStep where
  pick : Nat
  startOk : Bool
deriving DecidableEq

/-- Model of the Backup retry loop over the drawn indices: the
usedCache parameter is consulted exactly as in the source and, exactly
as in the source, never extended.  Returns the list of configurations
passed to Start (the attempt trace) and the successful configuration,
if any; an exhausted step list models the 1-minute budget elapsing. -/
def backupLoop (unused : List String) :
    List BackupStep → List Nat → List String × Option String
  | [], _ => ([], none)
  | step :: steps, usedCache =>
    if step.pick ∈ usedCache then backupLoop unused steps usedCache
    else
      let cfg := unused.getD step.pick ""
      if step.startOk then ([cfg], some cfg)
      else
        let r := backupLoop unused steps usedCache
        (cfg :: r.fst, r.snd)

/-- Results of Manager.Backup. -/
inductive BackupResult where
  | noUnusedConfigs
  | timedOutRetries
  | config (c : String)
deriving DecidableEq

/-- Model of Manager.Backup given the unused candidate list (already
filtered and shuffled) and the sequence of random draws: empty unused
list returns NoUnusedConfigs immediately; otherwise the retry loop
runs with an initially empty usedCache. -/
def backupRun (unused : List String) (steps : List BackupStep) :
    List String × BackupResult :=
  if unused.length < 1 then ([], BackupResult.noUnusedConfigs)
  else
    match backupLoop unused steps [] with
    | (tr, none) => (tr, BackupResult.timedOutRetries)
    | (tr, some c) => (tr, BackupResult.config c)

/-- C3: with a single unused candidate whose start always fails, two
draws of index 0 pass the same candidate to Start twice within one
backup cycle: the usedCache of tried indices is never populated, so a
tried index is retried. -/
theorem backup_retries_tried_index :
    (backupRun ["alpha"] [⟨0, false⟩, ⟨0, false⟩]).fst = ["alpha", "alpha"] ∧
    (backupRun ["alpha"] [⟨0, false⟩, ⟨0, false⟩]).snd =
      BackupResult.timedOutRetries ∧
    ¬ (backupRun ["alpha"] [⟨0, false⟩, ⟨0, false⟩]).fst.Nodup := by
  refine ⟨rfl, rfl, by decide⟩

/-- C4: starting configuration a from pool directory cfg marks the
joined path cfg/a used, not the identifier a; filterUnused therefore
still offers a, and a later backup cycle that draws it and succeeds
returns a — a configuration an earlier successful start marked used.
The second half checks the true part of the claim: a manager whose pool
is entirely used (by bare name) yields NoUnusedConfigs at once. -/
theorem backup_returns_previously_started_config :
    (managerStart ⟨"cfg", ["a", "b"], []⟩ "a" true).fst.used = ["cfg/a"] ∧
    isConfigUsed (managerStart ⟨"cfg", ["a", "b"], []⟩ "a" true).fst "a"
      = false ∧
    filterUnused (managerStart ⟨"cfg", ["a", "b"], []⟩ "a" true).fst
      = ["a", "b"] ∧
    (backupRun
      (filterUnused (managerStart ⟨"cfg", ["a", "b"], []⟩ "a" true).fst)
      [⟨0, true⟩]).snd = BackupResult.config "a" ∧
    (backupRun (filterUnused ⟨"cfg", ["a"], ["a"]⟩) []).snd
      = BackupResult.noUnusedConfigs := by
  refine ⟨?_, ?_, ?_, ?_, ?_⟩ <;> decide
